import Mathlib

/-!
Shallow embedding of the audio container codec of the RunAnywhere expo demo
screen (file `app/(tabs)/index.tsx` of the demo, STT/TTS section).

The embedded operations are:
* `floatToInt16` — the float32 → int16 sample conversion loop of
  `createWavFile` (clamp to [-1, 1], scale by 0x8000 / 0x7fff, store into an
  `Int16Array`);
* `createSTTWavHeader` — the 44-byte WAV header builder used by the Android
  raw-PCM recording path;
* `ttsWavHeader` / `createWavFile` — the WAV file builder for synthesized
  float32 PCM audio;
* `pushChunk` / `stopRecordingAndroid` / `startRecordingAndroid` — the
  chunk accumulator and recording state transitions of
  `handleStartRecording` / `handleStopRecording` (Android branch);
* `atob` — the base64 decoder the code relies on;
* `cleanPath` — the `file://` stripping applied before `transcribeFile`.

JavaScript strings are modelled as `List Char`, byte buffers as `List ℕ`
(each entry < 256 where it matters), finite float64 values as `ℚ` (every
arithmetic operation the code performs on float32-derived samples is exact
in float64, so ℚ models it faithfully), and int16 values as `ℤ`.
-/

/-! ## Sample Converter (float32 → int16), from createWavFile -/

/-- Truncation toward zero of a rational: the JavaScript ToIntegerOrInfinity
conversion applied to a finite number. -/
def jsTrunc (q : ℚ) : ℤ := if q < 0 then ⌈q⌉ else ⌊q⌋

/-- Wrap an integer into the signed 16-bit range, as storing into a
JavaScript `Int16Array` does (ToInt16: truncate, then wrap modulo 2^16). -/
def toInt16 (n : ℤ) : ℤ := (n + 32768) % 65536 - 32768

/-- Clamp to [-1, 1]: the `Math.max(-1, Math.min(1, x))` step. -/
def clampQ (q : ℚ) : ℚ := max (-1) (min 1 q)

/-- Float-to-int16 sample conversion of `createWavFile`, on a finite sample
value: `const sample = Math.max(-1, Math.min(1, floatView[i]));
int16Samples[i] = sample < 0 ? sample * 0x8000 : sample * 0x7fff;`. -/
def floatToInt16 (x : ℚ) : ℤ :=
  let sample := clampQ x
  toInt16 (jsTrunc (if sample < 0 then sample * 32768 else sample * 32767))

/-- Value of an IEEE-754 binary32 datum: not-a-number, a signed infinity, or
a finite value (every finite binary32 value is rational). -/
inductive F32 where
  | nan : F32
  | infty (neg : Bool) : F32
  | val (q : ℚ) : F32
deriving DecidableEq

/-- Decode a 32-bit pattern as an IEEE-754 binary32 value, as reading an
element of a JavaScript `Float32Array` does. -/
def f32OfBits (b : ℕ) : F32 :=
  let sign : ℕ := b / 2 ^ 31 % 2
  let expo : ℕ := b / 2 ^ 23 % 2 ^ 8
  let frac : ℕ := b % 2 ^ 23
  if expo = 255 then
    if frac = 0 then .infty (sign = 1) else .nan
  else
    let mag : ℚ :=
      if expo = 0 then (frac : ℚ) * (2 : ℚ) ^ (-149 : ℤ)
      else ((2 ^ 23 + frac : ℕ) : ℚ) * (2 : ℚ) ^ ((expo : ℤ) - 150)
    .val (if sign = 1 then -mag else mag)

/-- Float-to-int16 conversion on any binary32 value. `Math.min`/`Math.max`
propagate NaN and the `Int16Array` store maps NaN to 0; the clamp maps the
two infinities to the endpoints -1 and 1. -/
def floatToInt16F : F32 → ℤ
  | .nan => 0
  | .infty neg => if neg then -32768 else 32767
  | .val q => floatToInt16 q

/-- Reinterpret a byte buffer as little-endian binary32 values: the
`new Float32Array(bytes.buffer)` view (defined on buffers whose length is a
multiple of 4; `createWavFile` guards that case separately). -/
def f32List : List ℕ → List F32
  | b0 :: b1 :: b2 :: b3 :: rest =>
      f32OfBits (b0 + 256 * b1 + 256 ^ 2 * b2 + 256 ^ 3 * b3) :: f32List rest
  | _ => []

/-! ## Base64 decoding (the atob builtin the code uses) -/

/-- Value of one base64 alphabet character. -/
def b64Val (c : Char) : Option ℕ :=
  if 'A' ≤ c ∧ c ≤ 'Z' then some (c.toNat - 65)
  else if 'a' ≤ c ∧ c ≤ 'z' then some (c.toNat - 71)
  else if '0' ≤ c ∧ c ≤ '9' then some (c.toNat + 4)
  else if c = '+' then some 62
  else if c = '/' then some 63
  else none

/-- Remove up to two padding characters from the end of a base64 input. -/
def dropPad (cs : List Char) : List Char :=
  match cs.reverse with
  | '=' :: '=' :: rest => rest.reverse
  | '=' :: rest => rest.reverse
  | _ => cs

/-- Decode a list of 6-bit values into bytes, four values to three bytes,
with a final group of two or three values giving one or two bytes. A final
group of a single value is malformed (atob throws). -/
def b64DecodeVals : List ℕ → Option (List ℕ)
  | [] => some []
  | [_] => none
  | [a, b] => some [a * 4 + b / 16]
  | [a, b, c] => some [a * 4 + b / 16, b % 16 * 16 + c / 4]
  | a :: b :: c :: d :: rest => do
      let tail ← b64DecodeVals rest
      pure ([a * 4 + b / 16, b % 16 * 16 + c / 4, c % 4 * 64 + d] ++ tail)

/-- The `atob` builtin: base64 string to byte sequence, `none` when the
input is malformed (the builtin throws in that case). -/
def atob (s : List Char) : Option (List ℕ) := do
  let vs ← (dropPad s).mapM b64Val
  b64DecodeVals vs

/-! ## WAV headers and encoding -/

/-- Byte 0 of a little-endian 32-bit store (`DataView.setUint32`). -/
def u32b0 (n : ℕ) : ℕ := n % 256

/-- Byte 1 of a little-endian 32-bit store. -/
def u32b1 (n : ℕ) : ℕ := n / 256 % 256

/-- Byte 2 of a little-endian 32-bit store. -/
def u32b2 (n : ℕ) : ℕ := n / 256 ^ 2 % 256

/-- Byte 3 of a little-endian 32-bit store. -/
def u32b3 (n : ℕ) : ℕ := n / 256 ^ 3 % 256

/-- The 44-byte WAV header of the Android STT path (`createSTTWavHeader`):
fixed mono 16-bit 16000 Hz format, parametrised by the PCM data length.
Each entry transcribes the `DataView` store at that byte offset. -/
def createSTTWavHeader (dataLength : ℕ) : List ℕ :=
  let sampleRate := 16000
  let numChannels := 1
  let bitsPerSample := 16
  let byteRate := sampleRate * numChannels * (bitsPerSample / 8)
  let blockAlign := numChannels * (bitsPerSample / 8)
  [0x52, 0x49, 0x46, 0x46,
   u32b0 (36 + dataLength), u32b1 (36 + dataLength),
   u32b2 (36 + dataLength), u32b3 (36 + dataLength),
   0x57, 0x41, 0x56, 0x45,
   0x66, 0x6d, 0x74, 0x20,
   u32b0 16, u32b1 16, u32b2 16, u32b3 16,
   u32b0 1, u32b1 1,
   u32b0 numChannels, u32b1 numChannels,
   u32b0 sampleRate, u32b1 sampleRate, u32b2 sampleRate, u32b3 sampleRate,
   u32b0 byteRate, u32b1 byteRate, u32b2 byteRate, u32b3 byteRate,
   u32b0 blockAlign, u32b1 blockAlign,
   u32b0 bitsPerSample, u32b1 bitsPerSample,
   0x64, 0x61, 0x74, 0x61,
   u32b0 dataLength, u32b1 dataLength, u32b2 dataLength, u32b3 dataLength]

/-- The 44-byte WAV header written by `createWavFile` for synthesized audio:
same layout, sample rate taken from the synthesis result, byte rate written
as `audioSampleRate * 2` and block align as the literal 2. -/
def ttsWavHeader (audioSampleRate wavDataSize : ℕ) : List ℕ :=
  [0x52, 0x49, 0x46, 0x46,
   u32b0 (36 + wavDataSize), u32b1 (36 + wavDataSize),
   u32b2 (36 + wavDataSize), u32b3 (36 + wavDataSize),
   0x57, 0x41, 0x56, 0x45,
   0x66, 0x6d, 0x74, 0x20,
   u32b0 16, u32b1 16, u32b2 16, u32b3 16,
   u32b0 1, u32b1 1,
   u32b0 1, u32b1 1,
   u32b0 audioSampleRate, u32b1 audioSampleRate,
   u32b2 audioSampleRate, u32b3 audioSampleRate,
   u32b0 (audioSampleRate * 2), u32b1 (audioSampleRate * 2),
   u32b2 (audioSampleRate * 2), u32b3 (audioSampleRate * 2),
   u32b0 2, u32b1 2,
   u32b0 16, u32b1 16,
   0x64, 0x61, 0x74, 0x61,
   u32b0 wavDataSize, u32b1 wavDataSize, u32b2 wavDataSize, u32b3 wavDataSize]

/-- Little-endian byte pair of an int16 value, as the underlying buffer of
an `Int16Array` stores it (two's complement). -/
def int16LE (s : ℤ) : List ℕ :=
  [(s % 65536).toNat % 256, (s % 65536).toNat / 256]

/-- Bytes of a whole int16 sample sequence, in order. -/
def int16Bytes (samples : List ℤ) : List ℕ := (samples.map int16LE).flatten

/-- The WAV byte buffer `createWavFile` assembles: 44-byte header over
`int16Samples.length * 2` data bytes, followed by the sample bytes. -/
def encodeWav (samples : List ℤ) (audioSampleRate : ℕ) : List ℕ :=
  ttsWavHeader audioSampleRate (2 * samples.length) ++ int16Bytes samples

/-- Read back a little-endian uint32 at a byte offset of a buffer. -/
def readLE32 (bs : List ℕ) (off : ℕ) : ℕ :=
  match bs.drop off with
  | b0 :: b1 :: b2 :: b3 :: _ => b0 + 256 * b1 + 256 ^ 2 * b2 + 256 ^ 3 * b3
  | _ => 0

/-- Reinterpret a byte buffer as little-endian signed int16 values. -/
def int16OfBytes : List ℕ → List ℤ
  | b0 :: b1 :: rest => toInt16 ((b0 : ℤ) + 256 * b1) :: int16OfBytes rest
  | _ => []

/-! ## Chunk accumulator and Android recording state -/

/-- The `LiveAudioStream.on('data', ...)` listener body:
`audioChunksRef.current.push(data)` appends the base64 chunk. -/
def pushChunk (chunks : List (List Char)) (data : List Char) :
    List (List Char) :=
  chunks ++ [data]

/-- TypedArray bulk store `buf.set(c, off)` on a buffer modelled as a list:
overwrite `c.length` entries starting at `off`. -/
def writeAt (buf : List ℕ) (off : ℕ) (c : List ℕ) : List ℕ :=
  buf.take off ++ c ++ buf.drop (off + c.length)

/-- PCM assembly loop of `handleStopRecording`: allocate a zeroed buffer of
the total length, then `pcmData.set(chunk, offset)` for each decoded chunk,
advancing the offset by the chunk length. -/
def assemblePCM (decoded : List (List ℕ)) : List ℕ :=
  let total := (decoded.map List.length).sum
  (decoded.foldl (fun acc c => (writeAt acc.1 acc.2 c, acc.2 + c.length))
    (List.replicate total 0, 0)).1

/-- Strip the `file://` prefix from a path, as the code does with
`uri.startsWith('file://') ? uri.substring(7) : uri`. -/
def cleanPath (u : List Char) : List Char :=
  if "file://".data.isPrefixOf u then u.drop 7 else u

/-- Test whether a path begins with a URI scheme, that is a nonempty run of
letters followed by the separator `://`. -/
def hasURIScheme (s : List Char) : Bool :=
  let pre := s.takeWhile Char.isAlpha
  !pre.isEmpty && (s.drop pre.length).take 3 == "://".data

/-- Errors surfaced by the recording flow. `invalidState` never occurs in
the code; it is included so that claims about it can be stated. -/
inductive SttError where
  | emptyRecording : SttError
  | decodeFailed : SttError
  | storageWriteFailed : SttError
  | invalidState : SttError
deriving DecidableEq

/-- Recording-relevant state of the screen: the `isRecording` flag and the
accumulated base64 chunks held in `audioChunksRef.current`. -/
structure SttState where
  isRecording : Bool
  chunks : List (List Char)
deriving DecidableEq

/-- Android branch of `handleStartRecording` with `LiveAudioStream`
available: reinitialise the stream, reset the chunk list to empty, attach
the listener, start, and set `isRecording` to true. The current state is
not consulted; no error is produced. -/
def startRecordingAndroid (_st : SttState) : Option SttError × SttState :=
  (none, { isRecording := true, chunks := [] })

/-- The microphone button dispatch:
`onPress={isRecording ? handleStopRecording : handleStartRecording}`.
`true` means the press invokes the stop handler. -/
def micButtonStops (isRecording : Bool) : Bool := isRecording

/-- File name of the Android STT recording: `stt_recording_<timestamp>.wav`. -/
def sttFileName (now : ℕ) : List Char :=
  "stt_recording_".data ++ (Nat.repr now).data ++ ".wav".data

/-- Android branch of `handleStopRecording`: with no chunks, fail with the
empty-recording error (`setError('No audio recorded')`) and return; else
decode every chunk (a throwing `atob` lands in the catch block), assemble
the PCM buffer, prepend `createSTTWavHeader`, write the file (a failing
write lands in the catch block, chunks not yet cleared), strip `file://`
from the write URI, clear the chunk list, and hand
`cleanPath` of the resulting URI to `transcribeFile`. Returns the
transcription path and the WAV bytes written, plus the chunk list as left
behind. -/
def stopRecordingAndroid (chunks : List (List Char)) (cacheDir : List Char)
    (now : ℕ) (writeOk : Bool) :
    Except SttError (List Char × List ℕ) × List (List Char) :=
  if chunks.length = 0 then (.error .emptyRecording, chunks)
  else
    match chunks.mapM atob with
    | none => (.error .decodeFailed, chunks)
    | some decoded =>
      let pcmData := assemblePCM decoded
      let wavData := createSTTWavHeader pcmData.length ++ pcmData
      let writeUri := cacheDir ++ sttFileName now
      if writeOk then
        let audioUri := cleanPath writeUri
        (.ok (cleanPath audioUri, wavData), [])
      else (.error .storageWriteFailed, chunks)

/-- Path handed to `transcribeFile` on the iOS branch: the recorder URI with
`file://` stripped once for `audioUri` and once more for `cleanPath`. -/
def iosTranscribePath (uri : List Char) : List Char :=
  cleanPath (cleanPath uri)

/-! ## The TTS WAV creation operation (createWavFile) -/

/-- Whole `createWavFile` operation. Inputs: availability of the file
system module, the base64 audio payload, the sample rate, the current
timestamp (`Date.now()`), the cache directory, and whether the storage
write succeeds. Result: `none` models returning null (either the early
`if (!FileSystem) return null` or any exception landing in the catch
block: a throwing `atob`, a `Float32Array` view over a byte length that is
not a multiple of 4, or a failing write); `some (path, bytes)` models
returning the file path with `bytes` the WAV contents persisted at it (the
code base64-encodes the bytes and writes with base64 encoding, which
stores exactly these bytes). -/
def createWavFile (fsAvailable : Bool) (audioBase64 : List Char)
    (audioSampleRate now : ℕ) (cacheDir : List Char) (writeOk : Bool) :
    Option (List Char × List ℕ) :=
  if !fsAvailable then none
  else
    match atob audioBase64 with
    | none => none
    | some bytes =>
      if bytes.length % 4 ≠ 0 then none
      else
        let int16Samples := (f32List bytes).map floatToInt16F
        let wavBytes := encodeWav int16Samples audioSampleRate
        if writeOk then
          some (cacheDir ++ "tts_".data ++ (Nat.repr now).data ++ ".wav".data,
            wavBytes)
        else none

/-! ## Helper lemmas -/

lemma toInt16_eq_self {n : ℤ} (h1 : -32768 ≤ n) (h2 : n ≤ 32767) :
    toInt16 n = n := by
  unfold toInt16; omega

lemma jsTrunc_le {q : ℚ} {b : ℤ} (h : q ≤ (b : ℚ)) : jsTrunc q ≤ b := by
  unfold jsTrunc
  split
  · exact Int.ceil_le.mpr h
  · calc ⌊q⌋ ≤ ⌊(b : ℚ)⌋ := Int.floor_mono h
      _ = b := Int.floor_intCast b

lemma jsTrunc_ge {q : ℚ} {a : ℤ} (h : (a : ℚ) ≤ q) : a ≤ jsTrunc q := by
  unfold jsTrunc
  split
  · calc a = ⌈(a : ℚ)⌉ := (Int.ceil_intCast a).symm
      _ ≤ ⌈q⌉ := Int.ceil_mono h
  · exact Int.le_floor.mpr h

lemma clampQ_eq_self {s : ℚ} (h1 : -1 ≤ s) (h2 : s ≤ 1) : clampQ s = s := by
  unfold clampQ
  rw [min_eq_right h2, max_eq_right h1]

lemma clampQ_mem (s : ℚ) : -1 ≤ clampQ s ∧ clampQ s ≤ 1 := by
  unfold clampQ
  refine ⟨le_max_left _ _, max_le (by norm_num) (min_le_left _ _)⟩

lemma clampQ_idem (s : ℚ) : clampQ (clampQ s) = clampQ s :=
  clampQ_eq_self (clampQ_mem s).1 (clampQ_mem s).2

lemma floatToInt16_def (x : ℚ) :
    floatToInt16 x =
      toInt16 (jsTrunc
        (if clampQ x < 0 then clampQ x * 32768 else clampQ x * 32767)) := rfl

lemma floatToInt16_cases {s : ℚ} (h1 : -1 ≤ s) (h2 : s ≤ 1) :
    (s < 0 → floatToInt16 s = jsTrunc (s * 32768)) ∧
    (0 ≤ s → floatToInt16 s = jsTrunc (s * 32767)) ∧
    -32768 ≤ floatToInt16 s ∧ floatToInt16 s ≤ 32767 := by
  have hc : clampQ s = s := clampQ_eq_self h1 h2
  rw [floatToInt16_def, hc]
  rcases lt_or_le s 0 with hneg | hpos
  · have hq1 : ((-32768 : ℤ) : ℚ) ≤ s * 32768 := by
      push_cast
      nlinarith
    have hq2 : s * 32768 ≤ ((0 : ℤ) : ℚ) := by
      push_cast
      nlinarith
    have ht1 := jsTrunc_ge hq1
    have ht2 := jsTrunc_le hq2
    rw [if_pos hneg, toInt16_eq_self (by omega) (by omega)]
    refine ⟨fun _ => rfl, fun h => absurd h (not_le.mpr hneg), by omega, by omega⟩
  · have hq1 : ((0 : ℤ) : ℚ) ≤ s * 32767 := by
      push_cast
      nlinarith
    have hq2 : s * 32767 ≤ ((32767 : ℤ) : ℚ) := by
      push_cast
      nlinarith
    have ht1 := jsTrunc_ge hq1
    have ht2 := jsTrunc_le hq2
    rw [if_neg (not_lt.mpr hpos), toInt16_eq_self (by omega) (by omega)]
    refine ⟨fun h => absurd h (not_lt.mpr hpos), fun _ => rfl, by omega, by omega⟩

/-! ## Claim theorems -/

/-- C1: the float-to-int16 conversion of the WAV encoder first clamps to
[-1, 1] and then scales, a negative clamped value by 32768 and a
non-negative clamped value by 32767, truncating toward zero; for every
sample in [-1, 1] the result lies in [-32768, 32767], the conversion of 0
is 0, and outside [-1, 1] the result equals the conversion of the clamped
value. -/
theorem C1_floatToInt16_clamp_scale :
    (∀ s : ℚ, -1 ≤ s → s ≤ 1 →
      -32768 ≤ floatToInt16 s ∧ floatToInt16 s ≤ 32767) ∧
    floatToInt16 0 = 0 ∧
    (∀ s : ℚ, s < -1 ∨ 1 < s → floatToInt16 s = floatToInt16 (clampQ s)) ∧
    (∀ s : ℚ, -1 ≤ s → s < 0 → floatToInt16 s = jsTrunc (s * 32768)) ∧
    (∀ s : ℚ, 0 ≤ s → s ≤ 1 → floatToInt16 s = jsTrunc (s * 32767)) := by
  refine ⟨fun s h1 h2 => (floatToInt16_cases h1 h2).2.2, ?_, ?_, ?_, ?_⟩
  · have h := (floatToInt16_cases (s := 0) (by norm_num) (by norm_num)).2.1
      le_rfl
    rw [h]
    simp [jsTrunc, Int.floor_zero]
  · intro s _
    rw [floatToInt16_def s, floatToInt16_def (clampQ s), clampQ_idem]
  · intro s h1 h2
    exact (floatToInt16_cases h1 (by linarith)).1 h2
  · intro s h1 h2
    exact (floatToInt16_cases (by linarith) h2).2.1 h1

/-- Witness for C1 at the concrete sample -1/2. -/
theorem C1_witness :
    -32768 ≤ floatToInt16 (-1/2) ∧ floatToInt16 (-1/2) ≤ 32767 :=
  C1_floatToInt16_clamp_scale.1 (-1/2) (by norm_num) (by norm_num)

lemma length_createSTTWavHeader (N : ℕ) : (createSTTWavHeader N).length = 44 :=
  rfl

lemma length_ttsWavHeader (sr N : ℕ) : (ttsWavHeader sr N).length = 44 := rfl

lemma readLE32_stt_chunkSize (N : ℕ) :
    readLE32 (createSTTWavHeader N) 4 = (36 + N) % 2 ^ 32 := by
  show u32b0 (36 + N) + 256 * u32b1 (36 + N) + 256 ^ 2 * u32b2 (36 + N) +
      256 ^ 3 * u32b3 (36 + N) = (36 + N) % 2 ^ 32
  unfold u32b0 u32b1 u32b2 u32b3
  omega

lemma readLE32_stt_dataSize (N : ℕ) :
    readLE32 (createSTTWavHeader N) 40 = N % 2 ^ 32 := by
  show u32b0 N + 256 * u32b1 N + 256 ^ 2 * u32b2 N + 256 ^ 3 * u32b3 N =
      N % 2 ^ 32
  unfold u32b0 u32b1 u32b2 u32b3
  omega

lemma readLE32_tts_chunkSize (sr N : ℕ) :
    readLE32 (ttsWavHeader sr N) 4 = (36 + N) % 2 ^ 32 := by
  show u32b0 (36 + N) + 256 * u32b1 (36 + N) + 256 ^ 2 * u32b2 (36 + N) +
      256 ^ 3 * u32b3 (36 + N) = (36 + N) % 2 ^ 32
  unfold u32b0 u32b1 u32b2 u32b3
  omega

lemma readLE32_tts_dataSize (sr N : ℕ) :
    readLE32 (ttsWavHeader sr N) 40 = N % 2 ^ 32 := by
  show u32b0 N + 256 * u32b1 N + 256 ^ 2 * u32b2 N + 256 ^ 3 * u32b3 N =
      N % 2 ^ 32
  unfold u32b0 u32b1 u32b2 u32b3
  omega

lemma int16Bytes_length (l : List ℤ) : (int16Bytes l).length = 2 * l.length := by
  induction l with
  | nil => rfl
  | cons a t ih =>
    show (int16LE a ++ int16Bytes t).length = 2 * (t.length + 1)
    rw [List.length_append, ih, show (int16LE a).length = 2 from rfl]
    omega

/-- C2 counterexample: at the 32-bit-representable data length 2^32 - 1 the
stored ChunkSize field wraps modulo 2^32 and reads back 35, not 36 + N. -/
theorem C2_counterexample :
    readLE32 (createSTTWavHeader (2 ^ 32 - 1)) 4 = 35 ∧
    35 ≠ 36 + (2 ^ 32 - 1) := by
  constructor
  · decide
  · decide

/-- C2 (amended): the header is always exactly 44 bytes and the total file
is 44 bytes plus the data; the Subchunk2Size field reads back as N for
every N below 2^32, and the ChunkSize field reads back as 36 + N whenever
36 + N is itself below 2^32 (the stores wrap modulo 2^32, so the topmost
36 values of N break the ChunkSize equation). -/
theorem C2_header_layout (N sr : ℕ) :
    (createSTTWavHeader N).length = 44 ∧
    (ttsWavHeader sr N).length = 44 ∧
    (36 + N < 2 ^ 32 →
      readLE32 (createSTTWavHeader N) 4 = 36 + N ∧
      readLE32 (ttsWavHeader sr N) 4 = 36 + N) ∧
    (N < 2 ^ 32 →
      readLE32 (createSTTWavHeader N) 40 = N ∧
      readLE32 (ttsWavHeader sr N) 40 = N) ∧
    (∀ data : List ℕ,
      (createSTTWavHeader data.length ++ data).length = 44 + data.length) ∧
    (∀ samples : List ℤ,
      (encodeWav samples sr).length = 44 + 2 * samples.length) := by
  refine ⟨length_createSTTWavHeader N, length_ttsWavHeader sr N, ?_, ?_, ?_, ?_⟩
  · intro h
    rw [readLE32_stt_chunkSize, readLE32_tts_chunkSize, Nat.mod_eq_of_lt h]
    exact ⟨rfl, rfl⟩
  · intro h
    rw [readLE32_stt_dataSize, readLE32_tts_dataSize, Nat.mod_eq_of_lt h]
    exact ⟨rfl, rfl⟩
  · intro data
    rw [List.length_append, length_createSTTWavHeader]
  · intro samples
    rw [encodeWav, List.length_append, length_ttsWavHeader, int16Bytes_length]

/-- Witness for C2 at the concrete data length 12288 (three 4096-byte
chunks): ChunkSize reads back 12324 and Subchunk2Size 12288. -/
theorem C2_witness :
    readLE32 (createSTTWavHeader 12288) 4 = 36 + 12288 ∧
    readLE32 (createSTTWavHeader 12288) 40 = 12288 :=
  ⟨((C2_header_layout 12288 16000).2.2.1 (by norm_num)).1,
   ((C2_header_layout 12288 16000).2.2.2.1 (by norm_num)).1⟩

lemma int16LE_decode (s : ℤ) (rest : List ℕ) (h1 : -32768 ≤ s)
    (h2 : s < 32768) :
    int16OfBytes (int16LE s ++ rest) = s :: int16OfBytes rest := by
  have key : toInt16 ((((s % 65536).toNat % 256 : ℕ) : ℤ) +
      256 * (((s % 65536).toNat / 256 : ℕ) : ℤ)) = s := by
    unfold toInt16
    omega
  show toInt16 ((((s % 65536).toNat % 256 : ℕ) : ℤ) +
      256 * (((s % 65536).toNat / 256 : ℕ) : ℤ)) :: int16OfBytes rest =
    s :: int16OfBytes rest
  rw [key]

lemma int16Bytes_roundtrip (samples : List ℤ)
    (h : ∀ s ∈ samples, -32768 ≤ s ∧ s < 32768) :
    int16OfBytes (int16Bytes samples) = samples := by
  induction samples with
  | nil => rfl
  | cons a t ih =>
    have ha := h a (List.mem_cons_self a t)
    show int16OfBytes (int16LE a ++ int16Bytes t) = a :: t
    rw [int16LE_decode a _ ha.1 ha.2,
      ih (fun s hs => h s (List.mem_cons_of_mem a hs))]

lemma encodeWav_drop44 (samples : List ℤ) (sr : ℕ) :
    (encodeWav samples sr).drop 44 = int16Bytes samples := by
  unfold encodeWav
  rw [show (44 : ℕ) = (ttsWavHeader sr (2 * samples.length)).length from
      (length_ttsWavHeader _ _).symm,
    List.drop_left]

/-- C3: round-trip through the WAV encoder: for every int16 sample sequence
(empty and singleton included) and every sample rate, the bytes from offset
44 onward of the encoded WAV buffer, reinterpreted as little-endian int16
values, are exactly the original samples. -/
theorem C3_encode_roundtrip (samples : List ℤ) (sr : ℕ)
    (h : ∀ s ∈ samples, -32768 ≤ s ∧ s < 32768) :
    int16OfBytes ((encodeWav samples sr).drop 44) = samples := by
  rw [encodeWav_drop44, int16Bytes_roundtrip samples h]

/-- Witness for C3 on the empty sequence and on a singleton. -/
theorem C3_witness :
    int16OfBytes ((encodeWav [] 22050).drop 44) = [] ∧
    int16OfBytes ((encodeWav [1234] 22050).drop 44) = [1234] :=
  ⟨C3_encode_roundtrip [] 22050 (by decide),
   C3_encode_roundtrip [1234] 22050 (by decide)⟩

lemma assemble_go (ds : List (List ℕ)) (pre : List ℕ) :
    (ds.foldl (fun acc c => (writeAt acc.1 acc.2 c, acc.2 + c.length))
      (pre ++ List.replicate ((ds.map List.length).sum) 0, pre.length)).1 =
    pre ++ ds.flatten := by
  induction ds generalizing pre with
  | nil => simp
  | cons c t ih =>
    have hw : writeAt
        (pre ++ List.replicate (c.length + ((t.map List.length).sum)) 0)
        pre.length c =
        (pre ++ c) ++ List.replicate ((t.map List.length).sum) 0 := by
      unfold writeAt
      rw [List.replicate_add, List.take_left,
        show pre ++ (List.replicate c.length 0 ++
            List.replicate ((t.map List.length).sum) 0) =
          (pre ++ List.replicate c.length 0) ++
            List.replicate ((t.map List.length).sum) 0 from
          (List.append_assoc _ _ _).symm,
        show pre.length + c.length =
          (pre ++ List.replicate c.length 0).length by
            simp [List.length_append],
        List.drop_left]
    have hstep : (List.foldl
        (fun acc c => (writeAt acc.1 acc.2 c, acc.2 + c.length))
        (pre ++ List.replicate (((c :: t).map List.length).sum) 0, pre.length)
        (c :: t)) =
      (List.foldl (fun acc c => (writeAt acc.1 acc.2 c, acc.2 + c.length))
        ((pre ++ c) ++ List.replicate ((t.map List.length).sum) 0,
          (pre ++ c).length) t) := by
      simp only [List.foldl_cons, List.map_cons, List.sum_cons]
      rw [hw]
      simp [List.length_append]
    rw [hstep, ih (pre ++ c)]
    simp [List.append_assoc]

lemma assemblePCM_eq_flatten (decoded : List (List ℕ)) :
    assemblePCM decoded = decoded.flatten := by
  have h := assemble_go decoded []
  simpa [assemblePCM] using h

lemma stopRecordingAndroid_ok (chunks : List (List Char))
    (decoded : List (List ℕ)) (cacheDir : List Char) (now : ℕ)
    (hne : chunks ≠ []) (hdec : chunks.mapM atob = some decoded) :
    stopRecordingAndroid chunks cacheDir now true =
      (.ok (cleanPath (cleanPath (cacheDir ++ sttFileName now)),
        createSTTWavHeader decoded.flatten.length ++ decoded.flatten), []) := by
  unfold stopRecordingAndroid
  rw [if_neg (by simpa [List.length_eq_zero] using hne), hdec]
  simp [assemblePCM_eq_flatten]

/-- C4: for every sequence of base64 chunks pushed during a session, the
byte sequence assembled at finish is the concatenation of the decoded
chunks in exactly their arrival order (the WAV payload after the header is
`decoded.flatten`). -/
theorem C4_finish_concatenation (chunks : List (List Char))
    (decoded : List (List ℕ)) (cacheDir : List Char) (now : ℕ)
    (hne : chunks ≠ []) (hdec : chunks.mapM atob = some decoded) :
    ∃ p, (stopRecordingAndroid chunks cacheDir now true).1 =
      Except.ok (p,
        createSTTWavHeader decoded.flatten.length ++ decoded.flatten) :=
  ⟨_, by rw [stopRecordingAndroid_ok chunks decoded cacheDir now hne hdec]⟩

/-- Witness for C4: pushing the chunks AAA= and BBB= yields their decoded
bytes [0, 0] and [4, 16] concatenated in arrival order. -/
theorem C4_witness :
    ∃ p, (stopRecordingAndroid ["AAA=".data, "BBB=".data] "/cache/".data 0
        true).1 =
      Except.ok (p, createSTTWavHeader
        ([[0, 0], [4, 16]] : List (List ℕ)).flatten.length ++
        ([[0, 0], [4, 16]] : List (List ℕ)).flatten) :=
  C4_finish_concatenation _ [[0, 0], [4, 16]] _ 0 (by decide) (by decide)

/-- C5 counterexample: after a successful finish the chunk buffer is empty,
and a second finish fails with the EmptyRecording error (the code path
`setError('No audio recorded')`), not with InvalidState; a push after
finish does not fail either — it simply appends to the cleared buffer. -/
theorem C5_counterexample :
    (stopRecordingAndroid
        (stopRecordingAndroid ["AAAA".data] [] 0 true).2 [] 1 true).1 =
      Except.error SttError.emptyRecording ∧
    SttError.emptyRecording ≠ SttError.invalidState ∧
    pushChunk (stopRecordingAndroid ["AAAA".data] [] 0 true).2 "AAAA".data =
      ["AAAA".data] :=
  ⟨rfl, by decide, rfl⟩

/-- C5 (amended): finish clears the internal buffer; a second finish on the
cleared session fails with the EmptyRecording error rather than
InvalidState, and a push after finish is accepted, appending to the now
empty buffer. -/
theorem C5_single_use :
    (∀ (chunks : List (List Char)) (decoded : List (List ℕ))
        (cacheDir : List Char) (now : ℕ), chunks ≠ [] →
      chunks.mapM atob = some decoded →
      (stopRecordingAndroid chunks cacheDir now true).2 = []) ∧
    (∀ (cacheDir : List Char) (now : ℕ) (writeOk : Bool),
      (stopRecordingAndroid [] cacheDir now writeOk).1 =
        Except.error SttError.emptyRecording) ∧
    (∀ d : List Char, pushChunk [] d = [d]) := by
  refine ⟨fun chunks decoded cacheDir now hne hdec => ?_, fun _ _ _ => rfl,
    fun _ => rfl⟩
  rw [stopRecordingAndroid_ok chunks decoded cacheDir now hne hdec]

/-- Witness for C5 on the concrete chunk AAAA. -/
theorem C5_witness :
    (stopRecordingAndroid ["AAAA".data] [] 0 true).2 = [] :=
  C5_single_use.1 ["AAAA".data] [[0, 0, 0]] [] 0 (by decide) (by decide)

/-- C6 counterexample: invoking the start handler while a session is
already recording does not fail with InvalidState — it produces no error
and restarts recording with the accumulated chunks discarded. -/
theorem C6_counterexample :
    (startRecordingAndroid ⟨true, ["AAAA".data]⟩).1 ≠
      some SttError.invalidState ∧
    (startRecordingAndroid ⟨true, ["AAAA".data]⟩).2 =
      { isRecording := true, chunks := [] } :=
  ⟨by decide, rfl⟩

/-- C6 (amended): the start handler never fails with InvalidState; invoked
in any state, also while already recording, it succeeds and resets the
session (recording on, chunk buffer cleared, prior chunks discarded). Two
sessions are not interleaved only because the microphone button invokes
the stop handler, not the start handler, while recording. -/
theorem C6_start_resets :
    (∀ st : SttState, startRecordingAndroid st =
      (none, { isRecording := true, chunks := [] })) ∧
    micButtonStops true = true :=
  ⟨fun _ => rfl, rfl⟩

/-- C7: stopping with zero chunks received fails with the EmptyRecording
error, leaves the (empty) chunk buffer as is, and produces no WAV output
at all — in particular no 44-byte header-only file. -/
theorem C7_stop_empty (cacheDir : List Char) (now : ℕ) (writeOk : Bool) :
    stopRecordingAndroid [] cacheDir now writeOk =
      (Except.error SttError.emptyRecording, []) ∧
    ∀ r : List Char × List ℕ,
      (stopRecordingAndroid [] cacheDir now writeOk).1 ≠ Except.ok r := by
  refine ⟨rfl, fun r h => ?_⟩
  exact absurd h (by simp [stopRecordingAndroid])

lemma isPrefixOf_append_self (l1 l2 : List Char) :
    l1.isPrefixOf (l1 ++ l2) = true := by
  induction l1 with
  | nil => simp [List.isPrefixOf]
  | cons a t ih =>
    show (a == a && t.isPrefixOf (t ++ l2)) = true
    simp [ih]

lemma isPrefixOf_exists (l1 : List Char) :
    ∀ u, l1.isPrefixOf u = true → ∃ q, u = l1 ++ q := by
  induction l1 with
  | nil => exact fun u _ => ⟨u, rfl⟩
  | cons a t ih =>
    intro u h
    cases u with
    | nil => exact absurd h (by simp [List.isPrefixOf])
    | cons b v =>
      have hsplit : (a == b) = true ∧ t.isPrefixOf v = true := by
        have h2 : (a == b && t.isPrefixOf v) = true := h
        exact Bool.and_eq_true_iff.mp h2
      have hab : a = b := by simpa using hsplit.1
      obtain ⟨q, rfl⟩ := ih v hsplit.2
      subst hab
      exact ⟨q, rfl⟩

lemma cleanPath_file_append (p : List Char) :
    cleanPath ("file://".data ++ p) = p := by
  unfold cleanPath
  rw [if_pos]
  · rfl
  · exact (isPrefixOf_append_self "file://".data p)

lemma cleanPath_of_no_file (u : List Char)
    (h : "file://".data.isPrefixOf u = false) : cleanPath u = u := by
  unfold cleanPath
  rw [if_neg]
  simp [h]

lemma hasURIScheme_file_append (q : List Char) :
    hasURIScheme ("file://".data ++ q) = true := by
  show hasURIScheme ('f' :: 'i' :: 'l' :: 'e' :: ':' :: '/' :: '/' :: q) = true
  unfold hasURIScheme
  rw [List.takeWhile_cons_of_pos (by decide),
    List.takeWhile_cons_of_pos (by decide),
    List.takeWhile_cons_of_pos (by decide),
    List.takeWhile_cons_of_pos (by decide),
    List.takeWhile_cons_of_neg (by decide)]
  rfl

lemma hasURIScheme_false_no_file {p : List Char}
    (hp : hasURIScheme p = false) : "file://".data.isPrefixOf p = false := by
  cases hfp : "file://".data.isPrefixOf p with
  | false => rfl
  | true =>
    obtain ⟨q, rfl⟩ := isPrefixOf_exists _ p hfp
    rw [hasURIScheme_file_append] at hp
    exact Bool.noConfusion hp

/-- C9 counterexample: a recorder URI with a scheme other than file, here
content, passes through both stripping steps unchanged, so the path handed
to transcribeFile still carries a URI scheme prefix. -/
theorem C9_counterexample :
    iosTranscribePath "content://media/rec.m4a".data =
      "content://media/rec.m4a".data ∧
    hasURIScheme (iosTranscribePath "content://media/rec.m4a".data) = true :=
  ⟨rfl, by decide⟩

/-- C9 (amended): exactly the file scheme prefix is stripped: a URI of the
form file:// followed by a path yields that plain path, and it reaches
transcribeFile scheme-free whenever the remainder carries no scheme of its
own; a URI not starting with file:// is passed through unchanged. -/
theorem C9_strip_file_scheme :
    (∀ p : List Char, cleanPath ("file://".data ++ p) = p) ∧
    (∀ u : List Char, "file://".data.isPrefixOf u = false →
      cleanPath u = u) ∧
    (∀ p : List Char, hasURIScheme p = false →
      hasURIScheme (iosTranscribePath ("file://".data ++ p)) = false) := by
  refine ⟨cleanPath_file_append, cleanPath_of_no_file, fun p hp => ?_⟩
  unfold iosTranscribePath
  rw [cleanPath_file_append, cleanPath_of_no_file p
    (hasURIScheme_false_no_file hp)]
  exact hp

/-- Witness for C9 on the concrete path /var/rec.wav. -/
theorem C9_witness :
    hasURIScheme
      (iosTranscribePath ("file://".data ++ "/var/rec.wav".data)) = false :=
  C9_strip_file_scheme.2.2 "/var/rec.wav".data (by decide)

/-- C8: the WAV encoding is deterministic: for the same payload, sample
rate, directory and storage outcome, two runs of `createWavFile` at
different timestamps persist byte-identical WAV contents — only the file
name component of the result depends on the timestamp. -/
theorem C8_deterministic_payload (fsA : Bool) (b64 : List Char)
    (sr t1 t2 : ℕ) (dir : List Char) (w : Bool) :
    Option.map Prod.snd (createWavFile fsA b64 sr t1 dir w) =
      Option.map Prod.snd (createWavFile fsA b64 sr t2 dir w) ∧
    (∀ t : ℕ, Option.map Prod.fst (createWavFile fsA b64 sr t dir w) =
      Option.map
        (fun _ => dir ++ "tts_".data ++ (Nat.repr t).data ++ ".wav".data)
        (createWavFile fsA b64 sr t dir w)) := by
  constructor
  · unfold createWavFile
    cases fsA with
    | false => rfl
    | true =>
      cases hb : atob b64 with
      | none => rfl
      | some bytes =>
        simp only [Bool.not_true, Bool.false_eq_true, if_false]
        split
        · rfl
        · cases w <;> rfl
  · intro t
    unfold createWavFile
    cases fsA with
    | false => rfl
    | true =>
      cases hb : atob b64 with
      | none => rfl
      | some bytes =>
        simp only [Bool.not_true, Bool.false_eq_true, if_false]
        split
        · rfl
        · cases w <;> rfl

/-- C10: `createWavFile` never propagates a failure to its caller: it
returns null exactly when the file system module is missing, the base64
payload is malformed, the decoded byte length is not a multiple of 4 (so
the bytes cannot be viewed as float32 samples), or the storage write
fails; in every remaining case it returns the written file path together
with the encoded WAV bytes. -/
theorem C10_createWavFile_never_throws (fsA : Bool) (b64 : List Char)
    (sr now : ℕ) (dir : List Char) (w : Bool) :
    (createWavFile fsA b64 sr now dir w = none ↔
      fsA = false ∨ atob b64 = none ∨
      (∃ bytes, atob b64 = some bytes ∧ bytes.length % 4 ≠ 0) ∨
      w = false) ∧
    (∀ bytes, fsA = true → atob b64 = some bytes → bytes.length % 4 = 0 →
      w = true →
      createWavFile fsA b64 sr now dir w =
        some (dir ++ "tts_".data ++ (Nat.repr now).data ++ ".wav".data,
          encodeWav ((f32List bytes).map floatToInt16F) sr)) := by
  constructor
  · unfold createWavFile
    cases fsA with
    | false => simp
    | true =>
      cases hb : atob b64 with
      | none => simp
      | some bytes =>
        simp only [Bool.not_true, Bool.false_eq_true, if_false]
        by_cases hlen : bytes.length % 4 ≠ 0
        · simp [hlen]
        · cases w with
          | false => simp [hlen]
          | true => simp [hlen]
  · intro bytes hfs hb hlen hw
    subst hfs
    subst hw
    unfold createWavFile
    rw [hb]
    simp [hlen]

/-- Witness for C10: a payload decoding to three bytes is rejected with a
null result, and a payload of four zero bytes (one float32 zero sample)
succeeds with the timestamp-named path and the encoded WAV bytes. -/
theorem C10_witness :
    createWavFile true "AAAA".data 22050 7 [] true = none ∧
    createWavFile true "AAAAAA==".data 22050 7 [] true =
      some ([] ++ "tts_".data ++ (Nat.repr 7).data ++ ".wav".data,
        encodeWav ((f32List [0, 0, 0, 0]).map floatToInt16F) 22050) :=
  ⟨(C10_createWavFile_never_throws true "AAAA".data 22050 7 [] true).1.mpr
      (Or.inr (Or.inr (Or.inl ⟨[0, 0, 0], by decide, by decide⟩))),
   (C10_createWavFile_never_throws true "AAAAAA==".data 22050 7 [] true).2
      [0, 0, 0, 0] rfl (by decide) (by decide) rfl⟩
